import Mathlib

/-
Verification of the Project Euler 61 solver (src/main.py).

The program has two phases:
  * a generator that, for each polygon type m ∈ {3,…,8} with quadratic
    coefficients (a,b), collects every 4-digit value round(a·n² + b·n)
    for n in [quadratic_lower_limit a b (-1000), quadratic_upper_limit a b (-10000)),
    bucketing each value under its first two decimal digits;
  * a depth-first backtracking search (search_seqs) that assembles an ordered
    sequence of six numbers, one per polygon type, where the last two digits of
    each value equal the first two digits of the next, cyclically.

Modelling conventions:
  * Python ints are ℕ/ℤ; the float coefficients (all halves) and math.sqrt are
    modelled exactly over ℚ — on the magnitudes this program uses (values below
    2^53, discriminants below 2^53) every float the program computes is exact,
    except sqrt, whose correctly-rounded result never changes the surrounding
    floor/ceil here; the integer square root realises the exact semantics.
  * Python's round (banker's rounding) is pyRound.
  * The string slices str(x)[:2] and str(x)[2:] are modelled numerically and
    digit-count-aware (firstTwo, lastTwo): for 4-digit x they are x / 100 and
    x % 100, and for the boundary value 10000 (which the generator really
    produces, see C3) they are 10 and 0, matching Python's "10" and "000".
    Suffix strings of equal numeric value are conflated, but all such strings
    denote values below 10 while every bucket key is at least 10, so every
    comparison the program makes gets the same answer as on strings.
  * dicts and defaultdicts are insertion-ordered association lists; Python
    sets are lists (the solution cycle is unique, so iteration order does not
    affect any result proved here); the defaultdict side effect of inserting
    an empty bucket on a missing-key lookup is modelled faithfully (ddGet).
-/

namespace ProjectEuler61

/-- A figurate number record: (value, polygon type, index n), as the tuples
built on line 144 of src/main.py. -/
abbrev Fig := ℕ × ℕ × ℕ

/-- One polygon type's buckets: two-digit key ↦ figurate numbers, an
insertion-ordered association list modelling `defaultdict(lambda: set())`. -/
abbrev Buckets := List (ℕ × List Fig)

/-- The whole `figurate_numbers` mapping: polygon type ↦ buckets. -/
abbrev Index := List (ℕ × Buckets)

instance decEqBuckets : DecidableEq Buckets := inferInstance

instance decEqIndex : DecidableEq Index := inferInstance

/-- Python's built-in `round` on an exact rational: round half to even. -/
def pyRound (q : ℚ) : ℤ :=
  if q - ⌊q⌋ < 1/2 then ⌊q⌋
  else if 1/2 < q - ⌊q⌋ then ⌊q⌋ + 1
  else if ⌊q⌋ % 2 = 0 then ⌊q⌋ else ⌊q⌋ + 1

/-- Newton iteration for the integer square root, made structural on a fuel
argument so the kernel can evaluate it. -/
def isqrtIter (n : ℕ) : ℕ → ℕ → ℕ
  | 0, guess => guess
  | fuel + 1, guess =>
      let next := (guess + n / guess) / 2
      if next < guess then isqrtIter n fuel next else guess

/-- Integer square root ⌊√n⌋ (`math.sqrt` composed with floor/ceil only ever
needs this).  128 Newton steps are far more than enough for every radicand the
program computes (all below 2^22). -/
def isqrt (n : ℕ) : ℕ :=
  if n ≤ 1 then n else isqrtIter n 128 (n / 2)

/-- floor ((m + √K) / d) for a natural radicand K and d > 0, computed with the
integer square root (exact: no integer lies in (⌊√K⌋, √K]). -/
def sqrtFloorDiv (K : ℕ) (m d : ℤ) : ℤ :=
  Int.fdiv (m + (isqrt K : ℤ)) d

/-- ceil ((m + √K) / d) for a natural radicand K and d > 0: the quotient is an
integer exactly when K is a perfect square and d divides m + √K. -/
def sqrtCeilDiv (K : ℕ) (m d : ℤ) : ℤ :=
  if isqrt K * isqrt K = K ∧ d ∣ (m + (isqrt K : ℤ)) then
    Int.fdiv (m + (isqrt K : ℤ)) d
  else
    Int.fdiv (m + (isqrt K : ℤ)) d + 1

/-- `quadratic_lower_limit(a, b, c)` from src/main.py (lines 54-76):
ceil((-b + sqrt(b² - 4ac)) / (2a)), the smallest integer x with
a·x² + b·x + c ≥ 0 past the greater root.  The real square root is computed
exactly: scaling by t = a.den · b.den · c.den turns the expression into
(-t·b + √(t²·(b²-4ac))) / (t·2a) with integer entries. -/
def quadratic_lower_limit (a b c : ℚ) : ℤ :=
  let t : ℚ := ((a.den * b.den * c.den : ℕ) : ℚ)
  sqrtCeilDiv (t ^ 2 * (b ^ 2 - 4 * a * c)).num.toNat (-(t * b)).num (t * (2 * a)).num

/-- `quadratic_upper_limit(a, b, c)` from src/main.py (lines 79-101):
floor((-b + sqrt(b² - 4ac)) / (2a)) + 1, one past the largest integer x with
a·x² + b·x + c < 0 below the greater root. -/
def quadratic_upper_limit (a b c : ℚ) : ℤ :=
  let t : ℚ := ((a.den * b.den * c.den : ℕ) : ℚ)
  sqrtFloorDiv (t ^ 2 * (b ^ 2 - 4 * a * c)).num.toNat (-(t * b)).num (t * (2 * a)).num + 1

/-- `FIGURATE_QUADRATIC_PARAMETERS` (lines 44-51): polygon type m ↦ (a, b) with
P[m,n] = a·n² + b·n. -/
def FIGURATE_QUADRATIC_PARAMETERS : List (ℕ × ℚ × ℚ) :=
  [(3, 1/2,  1/2),
   (4, 1,    0),
   (5, 3/2, -(1/2)),
   (6, 2,   -1),
   (7, 5/2, -(3/2)),
   (8, 3,   -2)]

/-- The exact integer figurate formulas from the problem header (lines 8-13):
P[3,n] = n(n+1)/2, P[4,n] = n², P[5,n] = n(3n-1)/2, P[6,n] = n(2n-1),
P[7,n] = n(5n-3)/2, P[8,n] = n(3n-2). -/
def P (m : ℕ) (n : ℤ) : ℤ :=
  match m with
  | 3 => n * (n + 1) / 2
  | 4 => n ^ 2
  | 5 => n * (3 * n - 1) / 2
  | 6 => n * (2 * n - 1)
  | 7 => n * (5 * n - 3) / 2
  | 8 => n * (3 * n - 2)
  | _ => 0

/-- `x = round(a * n ** 2 + b * n)` (line 143). -/
def figValue (a b : ℚ) (n : ℤ) : ℤ := pyRound (a * (n : ℚ) ^ 2 + b * (n : ℚ))

/-- `x_lower_bound = 10 ** 3` (line 135). -/
def x_lower_bound : ℕ := 10 ^ 3

/-- `x_upper_bound = 10 ** 4` (line 136). -/
def x_upper_bound : ℕ := 10 ^ 4

/-- The tuples `(x, m, n)` produced by the inner generator loop for polygon
type m (lines 140-144), in iteration order n = n_min, …, n_max - 1. -/
def genEntries (m : ℕ) (a b : ℚ) : List Fig :=
  let n_min := quadratic_lower_limit a b (-(x_lower_bound : ℚ))
  let n_max := quadratic_upper_limit a b (-(x_upper_bound : ℚ))
  (List.range (n_max - n_min).toNat).map fun i : ℕ =>
    ((figValue a b (n_min + (i : ℤ))).toNat, m, (n_min + (i : ℤ)).toNat)

/-- Number of decimal digits, by fuelled structural recursion (the fuel x
always suffices). -/
def numDigitsAux : ℕ → ℕ → ℕ
  | 0, _ => 1
  | fuel + 1, x => if x < 10 then 1 else numDigitsAux fuel (x / 10) + 1

/-- Number of decimal digits of x (1 for x = 0). -/
def numDigits (x : ℕ) : ℕ := numDigitsAux x x

/-- `str(x)[:2]` as a number: the decimal string truncated to its first two
characters.  For the 4-digit values this is x / 100; for the boundary value
10000 the generator also produces (see C3) it is 10, as in Python. -/
def firstTwo (x : ℕ) : ℕ := x / 10 ^ (numDigits x - 2)

/-- `str(x)[2:]` as a number: everything after the first two characters.  For
4-digit values this is x % 100.  Distinct suffix strings of equal numeric
value ("000" vs "00") are conflated, but both denote values below 10 while
every bucket key is a two-digit prefix of a value ≥ 1000 (hence ≥ 10), so
every key comparison the program makes gets the same answer as on strings. -/
def lastTwo (x : ℕ) : ℕ := x % 10 ^ (numDigits x - 2)

/-- Add a figurate number to the bucket of key k, creating the bucket if the
key is new (the write `figurate_numbers[m][str(x)[:2]].add((x, m, n))`,
line 144). -/
def bucketAdd : Buckets → ℕ → Fig → Buckets
  | [], k, f => [(k, [f])]
  | (k', fs) :: bs, k, f =>
      if k' = k then (k', fs ++ [f]) :: bs else (k', fs) :: bucketAdd bs k f

/-- The per-type bucket mapping built by the generator loop for type m. -/
def bucketsOf (m : ℕ) (a b : ℚ) : Buckets :=
  (genEntries m a b).foldl (fun bs f => bucketAdd bs (firstTwo f.1) f) []

/-- `figurate_numbers` as built by the loop on lines 138-144. -/
def figurate_numbers : Index :=
  FIGURATE_QUADRATIC_PARAMETERS.map fun p => (p.1, bucketsOf p.1 p.2.1 p.2.2)

/-- The buckets stored for polygon type t: the read `figurate_numbers[t]`
(an ordinary dict access; t is always a key in the program's runs). -/
def bucketsFor : Index → ℕ → Buckets
  | [], _ => []
  | (t', bs) :: rest, t => if t' = t then bs else bucketsFor rest t

/-- Pure read of a bucket by key: the value `BucketIndex[t][k]` would hold,
with the empty set for a missing key. -/
def bucketGet : Buckets → ℕ → List Fig
  | [], _ => []
  | (k', fs) :: bs, k => if k' = k then fs else bucketGet bs k

/-- `set.union(*figurate_numbers[t].values())` (line 170): all entries across
every bucket of one type, in bucket insertion order. -/
def allEntries (bs : Buckets) : List Fig := (bs.map Prod.snd).flatten

/-- defaultdict lookup on one type's buckets: returns the bucket for k, and —
this is the side effect of `defaultdict.__getitem__` on a missing key —
the buckets with an empty bucket for k appended when k was absent. -/
def ddGet : Buckets → ℕ → List Fig × Buckets
  | [], k => ([], [(k, [])])
  | (k', fs) :: bs, k =>
      if k' = k then (fs, (k', fs) :: bs)
      else
        let r := ddGet bs k
        (r.1, (k', fs) :: r.2)

/-- The lookup `figurate_numbers[t][k]` (line 172) with the defaultdict side
effect threaded through the index. -/
def idxGet : Index → ℕ → ℕ → List Fig × Index
  | [], _, _ => ([], [])
  | (t', bs) :: rest, t, k =>
      if t' = t then
        let r := ddGet bs k
        (r.1, (t', r.2) :: rest)
      else
        let r := idxGet rest t k
        (r.1, (t', bs) :: r.2)

/-- `curr_seq[-1][0]`: the value of the last element of the sequence. -/
def lastValue (seq : List Fig) : ℕ := (seq.getLastD (0, 0, 0)).1

/-- `curr_seq[0][0]`: the value of the first element of the sequence. -/
def firstValue (seq : List Fig) : ℕ := (seq.headD (0, 0, 0)).1

/-- `ts = {8} if len(curr_seq) == 0 else remaining_polygon_types` (line 167). -/
def searchTs (seq : List Fig) (rem : List ℕ) : List ℕ :=
  if seq.isEmpty then [8] else rem

/-- The candidate pool computed on lines 169-172, with the defaultdict side
effect on the index in the non-empty case. -/
def searchChoices (idx : Index) (t : ℕ) (seq : List Fig) : List Fig × Index :=
  if seq.isEmpty then (allEntries (bucketsFor idx t), idx)
  else idxGet idx t (lastTwo (lastValue seq))

/-- The inner loop `for choice in choices:` (lines 175-180): append the choice,
recurse, and on failure pop it and continue.  `next` is the recursive call to
search_seqs; on success the fully built sequence is returned (Python leaves it
in curr_seq), on failure the caller's seq/rem are unchanged (Python's
backtracking restores them); index mutations persist either way. -/
def tryChoices (next : Index → List Fig → List ℕ → Option (List Fig) × Index) :
    List Fig → Index → List Fig → List ℕ → Option (List Fig) × Index
  | [], idx, _, _ => (none, idx)
  | c :: cs, idx, seq, rem =>
      match next idx (seq ++ [c]) rem with
      | (some sol, idx') => (some sol, idx')
      | (none, idx') => tryChoices next cs idx' seq rem

/-- The outer loop `for t in ts:` (lines 168-183): discard t from the remaining
types, try every choice of type t, and on failure restore t and move on. -/
def tryTypes (next : Index → List Fig → List ℕ → Option (List Fig) × Index) :
    List ℕ → Index → List Fig → List ℕ → Option (List Fig) × Index
  | [], idx, _, _ => (none, idx)
  | t :: ts, idx, seq, rem =>
      let cr := searchChoices idx t seq
      let rem1 := rem.erase t
      match tryChoices next cr.1 cr.2 seq rem1 with
      | (some sol, idx') => (some sol, idx')
      | (none, idx') => tryTypes next ts idx' seq (rem1 ++ [t])

/-- `search_seqs` (lines 159-186), with fuel making the recursion structural:
if the sequence holds one number per polygon type of the index, succeed iff it
closes cyclically (line 163); otherwise extend it by one element.  Fuel never
runs out when it exceeds the index size (each level grows seq by one). -/
def searchGo (idx0 : Index) : ℕ → Index → List Fig → List ℕ →
    Option (List Fig) × Index
  | 0, idx, _, _ => (none, idx)
  | fuel + 1, idx, seq, rem =>
      if seq.length = idx0.length then
        (if lastTwo (lastValue seq) = firstTwo (firstValue seq) then some seq
         else none, idx)
      else
        tryTypes (searchGo idx0 fuel) (searchTs seq rem) idx seq rem

/-- One run of the search from the initial state `curr_seq = []`,
`remaining_polygon_types = set(range(3, 9))` (lines 155-156, 189). -/
def searchRun (idx : Index) : Option (List Fig) × Index :=
  searchGo idx (idx.length + 1) idx [] [3, 4, 5, 6, 7, 8]

/-- `main()` (lines 104-191): some solution sequence on success; `none` models
the AssertionError from `assert search_seqs()` aborting the program. -/
def main : Option (List Fig) := (searchRun figurate_numbers).1

/-- The state of `figurate_numbers` after the search has run. -/
def mainFinalIndex : Index := (searchRun figurate_numbers).2

/-- `sum(map(lambda cf: cf[0], cyclical_figurate_sequence))` (line 200). -/
def figurateSum (l : List Fig) : ℕ := (l.map fun f => f.1).sum

/-- The `__main__` block (lines 194-200): on success, the printed report —
the six result tuples and their sum; on assertion failure, no output. -/
def programOutput (idx : Index) : Option (List Fig × ℕ) :=
  ((searchRun idx).1).map fun s => (s, figurateSum s)

/-- The sequence the program finds: the unique six-element cycle, rotated to
start at its octagonal member. -/
def mainSolution : List Fig :=
  [(1281, 8, 21), (8128, 6, 64), (2882, 5, 44), (8256, 3, 128), (5625, 4, 75),
   (2512, 7, 32)]

/-- Polygon types of a sequence, in order. -/
def typesOf (seq : List Fig) : List ℕ := seq.map fun f => f.2.1

/-- The six polygon types, as the program's `set(range(3, 9))`. -/
def allPolygonTypes : List ℕ := [3, 4, 5, 6, 7, 8]

/-- Cyclic adjacency as the spec states it: for every consecutive pair —
including the pair formed by the last and the first element — the last two
digits of the earlier value equal the first two digits of the later value. -/
def cyclicOk (l : List Fig) : Prop :=
  ∀ i < l.length,
    lastTwo ((l.getD i (0, 0, 0)).1) =
      firstTwo ((l.getD ((i + 1) % l.length) (0, 0, 0)).1)

instance decCyclicOk (l : List Fig) : Decidable (cyclicOk l) :=
  Nat.decidableBallLT _ _

/-- Stated from the spec: the types a search step may extend with — only the
octagonal type when the partial sequence is empty, otherwise the remaining
types. -/
def specCandidateTypes (seq : List Fig) (rem : List ℕ) : List ℕ :=
  if seq = [] then [8] else rem

/-- Stated from the spec: the candidate pool for type t — all FigurateNumber
entries of type t across every prefix bucket when the partial sequence is
empty, otherwise exactly `BucketIndex[t][last two digits of the last
element's value]`. -/
def specCandidatePool (idx : Index) (t : ℕ) (seq : List Fig) : List Fig :=
  if seq = [] then allEntries (bucketsFor idx t)
  else bucketGet (bucketsFor idx t) (lastTwo (lastValue seq))

/-- One expansion step of the backtracking search (lines 167-177): from state
(seq, rem), pick a candidate type t, pick a choice of that type from the
candidate pool, append it and discard t from the remaining types. -/
def searchStep (idx : Index) (s s' : List Fig × List ℕ) : Prop :=
  ∃ t ∈ searchTs s.1 s.2, ∃ c ∈ (searchChoices idx t s.1).1,
    s'.1 = s.1 ++ [c] ∧ s'.2 = s.2.erase t

/-- The search-state invariant of the spec: sequence length plus remaining
count is six, the remaining types hold no duplicates and are polygon types,
and the types used in the sequence are exactly {3..8} minus the remaining
ones, each at most once. -/
def searchInv (s : List Fig × List ℕ) : Prop :=
  s.1.length + s.2.length = 6 ∧
  s.2.Nodup ∧
  (∀ t ∈ s.2, t ∈ allPolygonTypes) ∧
  (typesOf s.1).Nodup ∧
  (typesOf s.1).toFinset = allPolygonTypes.toFinset \ s.2.toFinset

instance decSearchInv (s : List Fig × List ℕ) : Decidable (searchInv s) := by
  unfold searchInv
  infer_instance

instance decSearchStep (idx : Index) (s s' : List Fig × List ℕ) :
    Decidable (searchStep idx s s') := by
  unfold searchStep
  infer_instance

/-! ### Shared evaluation lemmas -/

lemma main_eval : main = some mainSolution := by with_unfolding_all rfl

/-! ### C1 -/

/-- C1 as frozen is false on the code: the returned sequence does contain
8128 and its sum is 28684, but 8128 appears as the hexagonal member (type 6,
n = 64), not as triangular with index 127, and 8281 does not appear at all
(the square member is 5625). -/
theorem C1_counterexample :
    main = some mainSolution ∧
    (8128, 3, 127) ∉ mainSolution ∧
    (8281, 4, 91) ∉ mainSolution ∧
    (mainSolution.map fun f => f.1).contains 8281 = false := by
  refine ⟨main_eval, ?_⟩
  exact of_decide_eq_true (by decide)

/-- C1 (amended): running the full pipeline succeeds and returns a sequence
of six 4-digit figurate numbers that includes 8128 as hexagonal with index
64, 2882 as pentagonal with index 44, and 5625 as square with index 75, plus
the triangular value 8256 (index 128), the heptagonal value 2512 (index 32)
and the octagonal value 1281 (index 21); the sum of the six values printed at
the end equals 28684. -/
theorem C1_main_returns_known_answer :
    main = some mainSolution ∧
    mainSolution.length = 6 ∧
    (8128, 6, 64) ∈ mainSolution ∧
    (2882, 5, 44) ∈ mainSolution ∧
    (5625, 4, 75) ∈ mainSolution ∧
    (8256, 3, 128) ∈ mainSolution ∧
    (2512, 7, 32) ∈ mainSolution ∧
    (1281, 8, 21) ∈ mainSolution ∧
    figurateSum mainSolution = 28684 := by
  refine ⟨main_eval, ?_⟩
  exact of_decide_eq_true (by decide)

/-! ### C2 -/

/-- C2: the sequence returned by main has exactly six elements, its polygon
types are exactly {3,…,8} each occurring once, and every consecutive pair —
including last→first — satisfies the two-digit adjacency. -/
theorem C2_cycle_valid_and_types_complete :
    main = some mainSolution ∧
    mainSolution.length = 6 ∧
    (typesOf mainSolution).Perm allPolygonTypes ∧
    cyclicOk mainSolution := by
  refine ⟨main_eval, ?_⟩
  exact of_decide_eq_true (by decide)

/-! ### C10 -/

/-- C10: the first element of the sequence returned by main is the octagonal
member (type 8): the returned cycle is the rotation starting at the octagonal
value 1281. -/
theorem C10_starts_octagonal :
    main = some mainSolution ∧
    mainSolution.head? = some (1281, 8, 21) ∧
    (typesOf mainSolution).head? = some 8 := by
  refine ⟨main_eval, ?_⟩
  exact of_decide_eq_true (by decide)

/-! ### C8 -/

/-- C8: the program prints nothing exactly when the search fails (the
`assert search_seqs()` aborts before any printing; there is no recoverable
path), and on the actual run it terminates normally, printing the six result
lines and the sum 28684. -/
theorem C8_fail_fast_or_print :
    (∀ idx : Index, programOutput idx = none ↔ (searchRun idx).1 = none) ∧
    programOutput figurate_numbers = some (mainSolution, 28684) ∧
    mainSolution.length = 6 := by
  refine ⟨?_, ?_, by decide⟩
  · intro idx
    cases h : (searchRun idx).1 <;> simp [programOutput, h]
  · show (searchRun figurate_numbers).1.map _ = _
    rw [show (searchRun figurate_numbers).1 = main from rfl, main_eval]
    exact of_decide_eq_true (by decide)

/-! ### C4 -/

set_option maxRecDepth 100000 in
set_option maxHeartbeats 2000000 in
/-- C4: every stored figurate number sits in the bucket of its own type under
the key given by its first two decimal digits, bucket keys are unique per
type (so it sits nowhere else), and every generated tuple is found in its
designated bucket. -/
theorem C4_bucket_membership :
    (∀ pr ∈ figurate_numbers,
      (∀ kv ∈ pr.2, ∀ f ∈ kv.2, f.2.1 = pr.1 ∧ firstTwo f.1 = kv.1) ∧
      (pr.2.map Prod.fst).Nodup) ∧
    (∀ pab ∈ FIGURATE_QUADRATIC_PARAMETERS,
      ∀ f ∈ genEntries pab.1 pab.2.1 pab.2.2,
        f ∈ bucketGet (bucketsFor figurate_numbers pab.1) (firstTwo f.1)) :=
  of_decide_eq_true (by with_unfolding_all rfl)

/-- Witness for C4 at a concrete input: the octagonal tuple (1045, 8, 19). -/
theorem C4_witness :
    (1045, 8, 19) ∈ bucketGet (bucketsFor figurate_numbers 8) (firstTwo 1045) :=
  C4_bucket_membership.2 (8, 3, -2)
    (of_decide_eq_true (by with_unfolding_all rfl)) (1045, 8, 19)
    (of_decide_eq_true (by with_unfolding_all rfl))

/-! ### C7 -/

set_option maxRecDepth 100000 in
set_option maxHeartbeats 2000000 in
/-- C7 as frozen is false on the code: during the search, the defaultdict
lookup `figurate_numbers[t][suffix]` on a missing suffix key inserts an empty
bucket.  Concretely, the square-type mapping has no bucket for key 45 after
generation, but after the search it holds an (empty) bucket for 45, so the
per-type prefix-bucket mapping was modified. -/
theorem C7_counterexample :
    (bucketsFor figurate_numbers 4).find? (fun pr => pr.1 == 45) = none ∧
    (bucketsFor mainFinalIndex 4).find? (fun pr => pr.1 == 45) =
      some (45, []) ∧
    mainFinalIndex ≠ figurate_numbers :=
  of_decide_eq_true (by with_unfolding_all rfl)

set_option maxRecDepth 100000 in
set_option maxHeartbeats 2000000 in
/-- C7 (amended): the index is built once and no FigurateNumber entry is ever
added, removed or changed afterwards — the search leaves every original
bucket in place and the per-type entry lists identical — but defaultdict
lookups during the search do add empty buckets for missing suffix keys. -/
theorem C7_entries_never_change :
    mainFinalIndex.map Prod.fst = figurate_numbers.map Prod.fst ∧
    (∀ pr ∈ figurate_numbers, ∀ kv ∈ pr.2, kv ∈ bucketsFor mainFinalIndex pr.1) ∧
    (∀ pr ∈ mainFinalIndex, ∀ kv ∈ pr.2,
      kv ∈ bucketsFor figurate_numbers pr.1 ∨ kv.2 = []) ∧
    (∀ pr ∈ figurate_numbers,
      allEntries (bucketsFor mainFinalIndex pr.1) = allEntries pr.2) :=
  of_decide_eq_true (by with_unfolding_all rfl)

set_option maxRecDepth 100000 in
set_option maxHeartbeats 2000000 in
/-- Witness for C7's amended theorem at a concrete input: the octagonal entry
list survives the search unchanged. -/
theorem C7_witness :
    allEntries (bucketsFor mainFinalIndex 8) =
      allEntries (bucketsFor figurate_numbers 8) := by
  have h := C7_entries_never_change.2.2.2 (8, bucketsFor figurate_numbers 8)
    (of_decide_eq_true (by with_unfolding_all rfl))
  exact h

/-! ### C6 -/

lemma ddGet_fst (bs : Buckets) (k : ℕ) : (ddGet bs k).1 = bucketGet bs k := by
  induction bs with
  | nil => rfl
  | cons pr bs ih =>
      obtain ⟨k', fs⟩ := pr
      by_cases h : k' = k <;> simp [ddGet, bucketGet, h, ih]

lemma idxGet_fst (idx : Index) (t k : ℕ) :
    (idxGet idx t k).1 = bucketGet (bucketsFor idx t) k := by
  induction idx with
  | nil => rfl
  | cons pr rest ih =>
      obtain ⟨t', bs⟩ := pr
      by_cases h : t' = t <;> simp [idxGet, bucketsFor, h, ih, ddGet_fst]

lemma searchChoices_fst (idx : Index) (t : ℕ) (seq : List Fig) :
    (searchChoices idx t seq).1 = specCandidatePool idx t seq := by
  cases seq with
  | nil => rfl
  | cons f l => simp [searchChoices, specCandidatePool, idxGet_fst]

/-- C6: when the partial sequence is empty the search extends only with the
octagonal type and its candidate pool is the union of all entries of that
type across every prefix bucket; when it is non-empty the candidate types
are the remaining types and the pool is exactly the bucket of the last
element's final two digits. -/
theorem C6_candidate_types_and_pools :
    (∀ (seq : List Fig) (rem : List ℕ),
      searchTs seq rem = specCandidateTypes seq rem) ∧
    (∀ (idx : Index) (t : ℕ) (seq : List Fig),
      (searchChoices idx t seq).1 = specCandidatePool idx t seq) := by
  constructor
  · intro seq rem
    cases seq <;> simp [searchTs, specCandidateTypes]
  · exact searchChoices_fst

/-! ### C5 -/

lemma mem_bucketGet {bs : Buckets} {k : ℕ} {f : Fig} (h : f ∈ bucketGet bs k) :
    ∃ pr ∈ bs, f ∈ pr.2 := by
  induction bs with
  | nil => simp [bucketGet] at h
  | cons pr bs ih =>
      obtain ⟨k', fs⟩ := pr
      by_cases hk : k' = k
      · simp [bucketGet, hk] at h
        exact ⟨(k', fs), List.mem_cons_self _ _, h⟩
      · simp [bucketGet, hk] at h
        obtain ⟨pr', hpr', hf⟩ := ih h
        exact ⟨pr', List.mem_cons_of_mem _ hpr', hf⟩

lemma mem_allEntries {bs : Buckets} {f : Fig} (h : f ∈ allEntries bs) :
    ∃ pr ∈ bs, f ∈ pr.2 := by
  unfold allEntries at h
  rw [List.mem_flatten] at h
  obtain ⟨l, hl, hf⟩ := h
  rw [List.mem_map] at hl
  obtain ⟨pr, hpr, rfl⟩ := hl
  exact ⟨pr, hpr, hf⟩

lemma bucketsFor_mem (idx : Index) (t : ℕ) :
    bucketsFor idx t = [] ∨ (t, bucketsFor idx t) ∈ idx := by
  induction idx with
  | nil => left; rfl
  | cons pr rest ih =>
      obtain ⟨t', bs⟩ := pr
      by_cases h : t' = t
      · right
        subst h
        simp [bucketsFor]
      · rcases ih with he | hm
        · left; simpa [bucketsFor, h] using he
        · right
          simp only [bucketsFor, h, if_false]
          exact List.mem_cons_of_mem _ hm

set_option maxRecDepth 100000 in
set_option maxHeartbeats 2000000 in
lemma figNumbers_types :
    ∀ pr ∈ figurate_numbers, ∀ kv ∈ pr.2, ∀ f ∈ kv.2, f.2.1 = pr.1 :=
  of_decide_eq_true (by with_unfolding_all rfl)

lemma choice_type {t : ℕ} {seq : List Fig} {c : Fig}
    (hc : c ∈ (searchChoices figurate_numbers t seq).1) : c.2.1 = t := by
  rw [searchChoices_fst] at hc
  unfold specCandidatePool at hc
  rcases bucketsFor_mem figurate_numbers t with he | hm
  · rw [he] at hc
    split at hc <;> simp [allEntries, bucketGet] at hc
  · have hex : ∃ pr ∈ bucketsFor figurate_numbers t, c ∈ pr.2 := by
      split at hc
      · exact mem_allEntries hc
      · exact mem_bucketGet hc
    obtain ⟨pr, hpr, hf⟩ := hex
    exact figNumbers_types _ hm _ hpr _ hf

/-- C5: the spec's search invariant — sequence length plus remaining-type
count is six, and the sequence's polygon types are exactly {3..8} minus the
remaining types, each at most once — holds in the initial state and is
preserved by every expansion step of the search over the built index. -/
theorem C5_search_invariant :
    searchInv ([], allPolygonTypes) ∧
    ∀ s s' : List Fig × List ℕ,
      searchInv s → searchStep figurate_numbers s s' → searchInv s' := by
  constructor
  · exact of_decide_eq_true (by decide)
  · intro s s' hinv hstep
    obtain ⟨seq, rem⟩ := s
    obtain ⟨seq', rem'⟩ := s'
    obtain ⟨t, ht, c, hc, hseq', hrem'⟩ := hstep
    obtain ⟨hlen, hnd, hsub, htnd, hts⟩ := hinv
    dsimp only at ht hc hseq' hrem' hlen hsub htnd hts
    subst hseq' hrem'
    have hct : c.2.1 = t := choice_type hc
    have htrem : t ∈ rem := by
      unfold searchTs at ht
      by_cases hne : seq.isEmpty
      · rw [if_pos hne, List.mem_singleton] at ht
        subst ht
        rw [List.isEmpty_iff] at hne
        subst hne
        have hnot : (8 : ℕ) ∉ allPolygonTypes.toFinset \ rem.toFinset := by
          rw [← hts]
          simp [typesOf]
        by_contra h8
        exact hnot (Finset.mem_sdiff.mpr
          ⟨by decide, fun hm => h8 (List.mem_toFinset.mp hm)⟩)
      · rwa [if_neg hne] at ht
    have httype : t ∈ allPolygonTypes := hsub t htrem
    have htnotseq : t ∉ typesOf seq := by
      intro hmem
      have h1 : t ∈ (typesOf seq).toFinset := List.mem_toFinset.mpr hmem
      rw [hts] at h1
      exact (Finset.mem_sdiff.mp h1).2 (List.mem_toFinset.mpr htrem)
    have htypesApp : typesOf (seq ++ [c]) = typesOf seq ++ [t] := by
      simp [typesOf, hct]
    refine ⟨?_, hnd.erase t, ?_, ?_, ?_⟩
    · dsimp only
      rw [List.length_append, List.length_erase_of_mem htrem]
      have : 0 < rem.length := List.length_pos_of_mem htrem
      simp only [List.length_singleton]
      omega
    · intro x hx
      exact hsub x (List.mem_of_mem_erase hx)
    · dsimp only
      rw [htypesApp, List.nodup_append]
      exact ⟨htnd, List.nodup_singleton t,
        fun x hx hx' => htnotseq (by rwa [List.mem_singleton.mp hx'] at hx)⟩
    · dsimp only
      rw [htypesApp]
      ext x
      have htsx : x ∈ typesOf seq ↔ x ∈ allPolygonTypes ∧ x ∉ rem := by
        have h2 := Finset.ext_iff.mp hts x
        simpa [List.mem_toFinset, Finset.mem_sdiff] using h2
      have herx : x ∈ rem.erase t ↔ x ≠ t ∧ x ∈ rem :=
        List.Nodup.mem_erase_iff hnd
      simp only [List.toFinset_append, Finset.mem_union, List.mem_toFinset,
        List.toFinset_cons, List.toFinset_nil, insert_emptyc_eq,
        Finset.mem_insert, Finset.mem_singleton, Finset.not_mem_empty,
        or_false, Finset.mem_sdiff]
      constructor
      · rintro (hx | rfl)
        · obtain ⟨hA, hR⟩ := htsx.mp hx
          exact ⟨hA, fun hxe => hR (herx.mp hxe).2⟩
        · exact ⟨httype, fun hxe => (herx.mp hxe).1 rfl⟩
      · rintro ⟨hA, hne⟩
        by_cases hxt : x = t
        · exact Or.inr hxt
        · exact Or.inl (htsx.mpr
            ⟨hA, fun hR => hne (herx.mpr ⟨hxt, hR⟩)⟩)

/-- Witness for C5 at concrete states: one step from the initial state to the
state holding the first octagonal number keeps the invariant. -/
theorem C5_witness :
    searchInv ([((1045 : ℕ), (8 : ℕ), (19 : ℕ))], [3, 4, 5, 6, 7]) :=
  C5_search_invariant.2 ([], allPolygonTypes)
    ([(1045, 8, 19)], [3, 4, 5, 6, 7])
    C5_search_invariant.1
    ⟨8, of_decide_eq_true (by decide),
     (1045, 8, 19), of_decide_eq_true (by with_unfolding_all rfl),
     rfl, rfl⟩

/-! ### C9 -/

lemma pyRound_intCast (k : ℤ) : pyRound (k : ℚ) = k := by
  have h : ((k : ℚ) - ⌊(k : ℚ)⌋ < 1/2) := by
    rw [Int.floor_intCast]
    norm_num
  unfold pyRound
  rw [if_pos h, Int.floor_intCast]

lemma figValue_of_eq (a b : ℚ) (n k : ℤ)
    (h : a * (n : ℚ) ^ 2 + b * (n : ℚ) = (k : ℚ)) : figValue a b n = k := by
  unfold figValue
  rw [h]
  exact pyRound_intCast k

lemma figValue_eq_P :
    ∀ pab ∈ FIGURATE_QUADRATIC_PARAMETERS, ∀ n : ℤ,
      figValue pab.2.1 pab.2.2 n = P pab.1 n := by
  intro pab hp n
  fin_cases hp
  · -- triangular
    apply figValue_of_eq
    obtain ⟨k, hk⟩ := Int.even_mul_succ_self n
    have h2 : P 3 n = k := by
      show n * (n + 1) / 2 = k
      rw [hk]
      omega
    rw [h2]
    have hq : (n : ℚ) * ((n : ℚ) + 1) = (k : ℚ) + (k : ℚ) := by
      exact_mod_cast hk
    linear_combination hq / 2
  · -- square
    apply figValue_of_eq
    show (1 : ℚ) * (n : ℚ) ^ 2 + 0 * (n : ℚ) = ((n ^ 2 : ℤ) : ℚ)
    push_cast
    ring
  · -- pentagonal
    apply figValue_of_eq
    obtain ⟨k, hk⟩ : Even (n * (3 * n - 1)) := by
      rcases Int.even_or_odd n with he | ho
      · exact he.mul_right _
      · exact (Odd.sub_odd (Odd.mul (⟨1, by norm_num⟩ : Odd (3 : ℤ)) ho) odd_one).mul_left n
    have h2 : P 5 n = k := by
      show n * (3 * n - 1) / 2 = k
      rw [hk]
      omega
    rw [h2]
    have hq : (n : ℚ) * (3 * (n : ℚ) - 1) = (k : ℚ) + (k : ℚ) := by
      exact_mod_cast hk
    linear_combination hq / 2
  · -- hexagonal
    apply figValue_of_eq
    show (2 : ℚ) * (n : ℚ) ^ 2 + (-1) * (n : ℚ) = ((n * (2 * n - 1) : ℤ) : ℚ)
    push_cast
    ring
  · -- heptagonal
    apply figValue_of_eq
    obtain ⟨k, hk⟩ : Even (n * (5 * n - 3)) := by
      rcases Int.even_or_odd n with he | ho
      · exact he.mul_right _
      · exact (Odd.sub_odd (Odd.mul (⟨2, by norm_num⟩ : Odd (5 : ℤ)) ho) (⟨1, by norm_num⟩ : Odd (3 : ℤ))).mul_left n
    have h2 : P 7 n = k := by
      show n * (5 * n - 3) / 2 = k
      rw [hk]
      omega
    rw [h2]
    have hq : (n : ℚ) * (5 * (n : ℚ) - 3) = (k : ℚ) + (k : ℚ) := by
      exact_mod_cast hk
    linear_combination hq / 2
  · -- octagonal
    apply figValue_of_eq
    show (3 : ℚ) * (n : ℚ) ^ 2 + (-2) * (n : ℚ) = ((n * (3 * n - 2) : ℤ) : ℚ)
    push_cast
    ring

/-- C9: for every polygon type with its float coefficient pair (a, b) and
every integer index n, the generator's `round(a * n ** 2 + b * n)` equals the
exact integer figurate value P[m, n]: the quadratic always lands exactly on
an integer before rounding. -/
theorem C9_rounding_exact :
    ∀ pab ∈ FIGURATE_QUADRATIC_PARAMETERS, ∀ n : ℤ,
      figValue pab.2.1 pab.2.2 n = P pab.1 n :=
  figValue_eq_P

/-- Witness for C9 at the triangular pair and n = 127 (value 8128). -/
theorem C9_witness : figValue (1/2) (1/2) 127 = P 3 127 :=
  C9_rounding_exact (3, 1/2, 1/2)
    (of_decide_eq_true (by with_unfolding_all rfl)) 127

/-! ### C3 -/

lemma P3_mono : ∀ n₁ n₂ : ℤ, 0 ≤ n₁ → n₁ ≤ n₂ → P 3 n₁ ≤ P 3 n₂ := by
  intro a b ha hab
  show a * (a + 1) / 2 ≤ b * (b + 1) / 2
  exact Int.ediv_le_ediv (by norm_num) (by nlinarith)

lemma P4_mono : ∀ n₁ n₂ : ℤ, 0 ≤ n₁ → n₁ ≤ n₂ → P 4 n₁ ≤ P 4 n₂ := by
  intro a b ha hab
  show a ^ 2 ≤ b ^ 2
  nlinarith

lemma P5_mono : ∀ n₁ n₂ : ℤ, 0 ≤ n₁ → n₁ ≤ n₂ → P 5 n₁ ≤ P 5 n₂ := by
  intro a b ha hab
  show a * (3 * a - 1) / 2 ≤ b * (3 * b - 1) / 2
  apply Int.ediv_le_ediv (by norm_num)
  rcases eq_or_lt_of_le hab with rfl | hlt
  · exact le_refl _
  · nlinarith [mul_nonneg (by omega : (0:ℤ) ≤ b - a)
      (by omega : (0:ℤ) ≤ 3 * b + 3 * a - 1)]

lemma P6_mono : ∀ n₁ n₂ : ℤ, 0 ≤ n₁ → n₁ ≤ n₂ → P 6 n₁ ≤ P 6 n₂ := by
  intro a b ha hab
  show a * (2 * a - 1) ≤ b * (2 * b - 1)
  rcases eq_or_lt_of_le hab with rfl | hlt
  · exact le_refl _
  · nlinarith [mul_nonneg (by omega : (0:ℤ) ≤ b - a)
      (by omega : (0:ℤ) ≤ 2 * b + 2 * a - 1)]

lemma P7_mono : ∀ n₁ n₂ : ℤ, 0 ≤ n₁ → n₁ ≤ n₂ → P 7 n₁ ≤ P 7 n₂ := by
  intro a b ha hab
  show a * (5 * a - 3) / 2 ≤ b * (5 * b - 3) / 2
  apply Int.ediv_le_ediv (by norm_num)
  rcases eq_or_lt_of_le hab with rfl | hlt
  · exact le_refl _
  · nlinarith [mul_nonneg (by omega : (0:ℤ) ≤ b - a)
      (by omega : (0:ℤ) ≤ 5 * b + 5 * a - 3)]

lemma P8_mono : ∀ n₁ n₂ : ℤ, 0 ≤ n₁ → n₁ ≤ n₂ → P 8 n₁ ≤ P 8 n₂ := by
  intro a b ha hab
  show a * (3 * a - 2) ≤ b * (3 * b - 2)
  rcases eq_or_lt_of_le hab with rfl | hlt
  · exact le_refl _
  · nlinarith [mul_nonneg (by omega : (0:ℤ) ≤ b - a)
      (by omega : (0:ℤ) ≤ 3 * b + 3 * a - 2)]

lemma genEntries_mem (m : ℕ) (a b : ℚ) (lo hi : ℤ)
    (hlo : quadratic_lower_limit a b (-(x_lower_bound : ℚ)) = lo)
    (hhi : quadratic_upper_limit a b (-(x_upper_bound : ℚ)) = hi)
    (n : ℕ) (h1 : lo ≤ (n : ℤ)) (h2 : (n : ℤ) < hi) :
    ((figValue a b n).toNat, m, n) ∈ genEntries m a b := by
  have hEq : genEntries m a b =
      (List.range (hi - lo).toNat).map
        (fun i : ℕ => ((figValue a b (lo + (i : ℤ))).toNat, m,
          (lo + (i : ℤ)).toNat)) := by
    simp only [genEntries]
    rw [hlo, hhi]
  rw [hEq, List.mem_map]
  refine ⟨((n : ℤ) - lo).toNat, ?_, ?_⟩
  · rw [List.mem_range]
    omega
  · have heq : lo + ((((n : ℤ) - lo).toNat : ℕ) : ℤ) = (n : ℤ) := by omega
    rw [heq]
    simp

lemma gen_complete (m : ℕ) (a b : ℚ) (lo hi : ℤ)
    (hmem : (m, a, b) ∈ FIGURATE_QUADRATIC_PARAMETERS)
    (hmono : ∀ n₁ n₂ : ℤ, 0 ≤ n₁ → n₁ ≤ n₂ → P m n₁ ≤ P m n₂)
    (e1' : quadratic_lower_limit a b (-(x_lower_bound : ℚ)) = lo)
    (e2' : quadratic_upper_limit a b (-(x_upper_bound : ℚ)) = hi)
    (h1min : 1 ≤ lo) (h1max : 1 ≤ hi)
    (hb : P m (lo - 1) < 1000) (hd : 10000 ≤ P m hi) :
    ∀ n : ℕ, 1000 ≤ P m n → P m n < 10000 →
      ((P m n).toNat, m, n) ∈ genEntries m a b := by
  intro n h1 h2
  have hA : lo ≤ (n : ℤ) := by
    by_contra hcon
    push_neg at hcon
    have := hmono n (lo - 1) (Int.natCast_nonneg n) (by omega)
    omega
  have hB : (n : ℤ) < hi := by
    by_contra hcon
    push_neg at hcon
    have := hmono hi n (by omega) hcon
    omega
  have hfv := figValue_eq_P (m, a, b) hmem (n : ℤ)
  dsimp only at hfv
  rw [← hfv]
  exact genEntries_mem m a b lo hi e1' e2' n hA hB

set_option maxRecDepth 100000 in
set_option maxHeartbeats 2000000 in
/-- C3: the completeness half of the claim holds — for every polygon type,
every nonnegative index n whose exact figurate value lies in [1000, 10000)
yields a generated entry — but the range half fails: because sqrt(40000) is
exactly 200, quadratic_upper_limit(1, 0, -10000) returns 101 instead of 100,
so the square generator also produces the 5-digit value 10000 = P[4,100].
That single entry is the only generated value outside [1000, 9999]. -/
theorem C3_bounds_boundary_bug :
    (∀ pab ∈ FIGURATE_QUADRATIC_PARAMETERS,
      ∀ n : ℕ, 1000 ≤ P pab.1 n → P pab.1 n < 10000 →
        ((P pab.1 n).toNat, pab.1, n) ∈ genEntries pab.1 pab.2.1 pab.2.2) ∧
    quadratic_upper_limit 1 0 (-10000) = 101 ∧
    P 4 100 = 10000 ∧
    (10000, 4, 100) ∈ genEntries 4 1 0 ∧
    (∀ pab ∈ FIGURATE_QUADRATIC_PARAMETERS,
      ∀ f ∈ genEntries pab.1 pab.2.1 pab.2.2,
        (1000 ≤ f.1 ∧ f.1 ≤ 9999) ∨ f = (10000, 4, 100)) := by
  refine ⟨?_, by with_unfolding_all rfl, by decide,
    of_decide_eq_true (by with_unfolding_all rfl),
    of_decide_eq_true (by with_unfolding_all rfl)⟩
  intro pab hp
  fin_cases hp
  · exact gen_complete 3 (1/2) (1/2) 45 141
      (of_decide_eq_true (by with_unfolding_all rfl)) P3_mono
      (by with_unfolding_all rfl) (by with_unfolding_all rfl)
      (by norm_num) (by norm_num) (by decide) (by decide)
  · exact gen_complete 4 1 0 32 101
      (of_decide_eq_true (by with_unfolding_all rfl)) P4_mono
      (by with_unfolding_all rfl) (by with_unfolding_all rfl)
      (by norm_num) (by norm_num) (by decide) (by decide)
  · exact gen_complete 5 (3/2) (-(1/2)) 26 82
      (of_decide_eq_true (by with_unfolding_all rfl)) P5_mono
      (by with_unfolding_all rfl) (by with_unfolding_all rfl)
      (by norm_num) (by norm_num) (by decide) (by decide)
  · exact gen_complete 6 2 (-1) 23 71
      (of_decide_eq_true (by with_unfolding_all rfl)) P6_mono
      (by with_unfolding_all rfl) (by with_unfolding_all rfl)
      (by norm_num) (by norm_num) (by decide) (by decide)
  · exact gen_complete 7 (5/2) (-(3/2)) 21 64
      (of_decide_eq_true (by with_unfolding_all rfl)) P7_mono
      (by with_unfolding_all rfl) (by with_unfolding_all rfl)
      (by norm_num) (by norm_num) (by decide) (by decide)
  · exact gen_complete 8 3 (-2) 19 59
      (of_decide_eq_true (by with_unfolding_all rfl)) P8_mono
      (by with_unfolding_all rfl) (by with_unfolding_all rfl)
      (by norm_num) (by norm_num) (by decide) (by decide)

/-- Witness for C3 at a concrete input: index 45 of the triangular sequence
(value 1035) is generated. -/
theorem C3_witness :
    ((P 3 45).toNat, 3, 45) ∈ genEntries 3 (1/2) (1/2) :=
  (C3_bounds_boundary_bug.1 (3, 1/2, 1/2)
    (of_decide_eq_true (by with_unfolding_all rfl))) 45
    (by decide) (by decide)

end ProjectEuler61
